import Mathlib

/-!
Shallow embedding of the ChatSystemPlugin core (UChatSubsystem and
UChatComponent) and verification of its specification.

Modelling conventions:
* `APlayerState*` identities are modelled as `Nat` (`Player`); a nullable
  pointer becomes `Option Player`.  Every registered `UChatComponent` is
  identified with the `Player` that owns it (the component is attached to a
  `PlayerState`); the source's defensive null checks on components and owners
  hold vacuously under this identification.
* `float` world-time and `FVector` coordinates are modelled exactly as
  rationals (`ℚ`); `FDateTime` timestamps are likewise a rational clock value
  passed in as `now`.
* `TMap<APlayerState*, float>` is modelled as an association list with the
  replace-or-insert semantics of `TMap::Add`.
* `GetWorld()`/`GetAuthGameMode()` availability is collapsed into a single
  `authority : Bool` argument: the guard at the top of `BroadcastMessage` and
  `BroadcastSystemMessage`.
* Pawn resolution (`PlayerState->GetPawn()->GetActorLocation()`) is a side
  table `pos : Player → Option Vec3`; `GetPlayerName()` is
  `name : Player → String`.
-/

/-- Stable participant identity (an `APlayerState*`). -/
abbrev Player := Nat

/-- `FVector` over exact rationals. -/
structure Vec3 where
  x : ℚ
  y : ℚ
  z : ℚ
deriving DecidableEq

/-- `FVector::DistSquared`. -/
def distSq (a b : Vec3) : ℚ :=
  (a.x - b.x) * (a.x - b.x) + (a.y - b.y) * (a.y - b.y) + (a.z - b.z) * (a.z - b.z)

/-- `FLinearColor`. -/
structure LinearColor where
  r : ℚ
  g : ℚ
  b : ℚ
  a : ℚ
deriving DecidableEq

/-- `FLinearColor::White`. -/
def colorWhite : LinearColor := ⟨1, 1, 1, 1⟩

/-- `EChatChannel`. -/
inductive EChatChannel where
  | Global
  | Team
  | Whisper
  | System
  | Proximity
  | Custom
deriving DecidableEq

/-- `FChatMessage`. -/
structure ChatMessage where
  sender : Option Player
  senderName : String
  content : String
  channel : EChatChannel
  timestamp : ℚ
  messageColor : LinearColor
  whisperTarget : Option Player
deriving DecidableEq

/-- `FChatSettings` (defaults as in the source). -/
structure ChatSettings where
  maxMessageLength : Int := 256
  messageCooldown : ℚ := 1/2
  maxHistorySize : Int := 100
  bEnableProfanityFilter : Bool := false
  proximityChatRadius : ℚ := 1000
  bAllowEmptyMessages : Bool := false
deriving DecidableEq

/-- Default-constructed `FChatSettings`. -/
def defaultChatSettings : ChatSettings := {}

/-- World-side lookup tables: pawn position and player display name. -/
structure Env where
  pos : Player → Option Vec3
  name : Player → String

/-- The mutable state owned by `UChatSubsystem`. -/
structure SubsystemState where
  settings : ChatSettings
  registered : List Player
  history : List ChatMessage
  playerMessageTimes : List (Player × ℚ)

/-- `UChatSubsystem::ValidateMessage`: returns `some reason` on the first
failing check, `none` if the message passes all four checks. -/
def validateMessage (s : ChatSettings) (m : ChatMessage) : Option String :=
  if m.content.isEmpty ∧ s.bAllowEmptyMessages = false then
    some "Message content is empty"
  else if s.maxMessageLength < (m.content.length : Int) then
    some ("Message too long (max " ++ toString s.maxMessageLength ++ " characters)")
  else if m.channel ≠ EChatChannel.System ∧ m.sender = none then
    some "Invalid sender"
  else if m.channel = EChatChannel.Whisper ∧ m.whisperTarget = none then
    some "Whisper requires a target player"
  else
    none

/-- `TMap::Find` on `PlayerMessageTimes`: the last-accepted timestamp recorded
for `p`, if any. -/
def findTime (times : List (Player × ℚ)) (p : Player) : Option ℚ :=
  (times.find? (fun e => e.fst == p)).map Prod.snd

/-- `TMap::Add` on `PlayerMessageTimes`: replace the entry for `p` if present,
otherwise append one. -/
def addTime : List (Player × ℚ) → Player → ℚ → List (Player × ℚ)
  | [], p, t => [(p, t)]
  | e :: rest, p, t =>
    if e.fst == p then (p, t) :: rest else e :: addTime rest p t

/-- `UChatSubsystem::IsPlayerRateLimited`, for a non-null player in a valid
world.  Returns `(some remaining, times)` (entry untouched) when the player is
still in cooldown — the source formats `remaining` into the failure string with
`%.1f` — and `(none, times')` with the current time recorded otherwise. -/
def isPlayerRateLimited (cooldown : ℚ) (times : List (Player × ℚ)) (p : Player)
    (now : ℚ) : Option ℚ × List (Player × ℚ) :=
  match findTime times p with
  | some last =>
    if now - last < cooldown then
      (some (cooldown - (now - last)), times)
    else
      (none, addTime times p now)
  | none => (none, addTime times p now)

/-- The trimming loop of `UChatSubsystem::AddToHistory`:
`while (Num > MaxHistorySize) RemoveAt(0)`.  (For a negative `maxSize` the
source loop would run `RemoveAt(0)` on an empty array; the model returns `[]`
there, and every theorem about it assumes `0 ≤ maxSize`.) -/
def trimHistory (maxSize : Int) : List ChatMessage → List ChatMessage
  | [] => []
  | m :: rest =>
    if maxSize < ((m :: rest).length : Int) then trimHistory maxSize rest
    else m :: rest

/-- `UChatSubsystem::AddToHistory`: append, then evict from the front while
over the cap. -/
def addToHistory (maxSize : Int) (history : List ChatMessage) (m : ChatMessage) :
    List ChatMessage :=
  trimHistory maxSize (history ++ [m])

/-- `UChatSubsystem::GetRecentMessages`. -/
def getRecentMessages (count : Int) (history : List ChatMessage) : List ChatMessage :=
  if count ≤ 0 ∨ (history.length : Int) ≤ count then history
  else history.drop (max 0 ((history.length : Int) - count)).toNat

/-- `UChatSubsystem::GetChatComponentForPlayer`: the first registered component
whose owner is `p`. -/
def getChatComponentForPlayer (registered : List Player) (p : Player) : Option Player :=
  registered.find? (fun c => c == p)

/-- `UChatSubsystem::SendToAllPlayers`: every registered component (each has an
owning player in this model). -/
def sendToAllPlayers (registered : List Player) : List Player :=
  registered

/-- `UChatSubsystem::SendToTeam`: no team model; falls back to all players when
the sender is present. -/
def sendToTeam (registered : List Player) (m : ChatMessage) : List Player :=
  match m.sender with
  | none => []
  | some _ => sendToAllPlayers registered

/-- `UChatSubsystem::SendToPlayer` (whisper routing): deliver to the target's
component if found, then also to the sender's component if found. -/
def sendToPlayer (registered : List Player) (m : ChatMessage) : List Player :=
  match m.whisperTarget with
  | none => []
  | some t =>
    (match getChatComponentForPlayer registered t with
     | some c => [c]
     | none => []) ++
    (match m.sender with
     | some s =>
       match getChatComponentForPlayer registered s with
       | some c => [c]
       | none => []
     | none => [])

/-- `UChatSubsystem::SendToProximity`: requires a sender with a pawn; delivers
to every registered component whose owner has a pawn within squared distance
`radius²` of the sender. -/
def sendToProximity (env : Env) (radius : ℚ) (registered : List Player)
    (m : ChatMessage) : List Player :=
  match m.sender with
  | none => []
  | some s =>
    match env.pos s with
    | none => []
    | some sp =>
      registered.filter (fun c =>
        match env.pos c with
        | none => false
        | some q => decide (distSq sp q ≤ radius * radius))

/-- `UChatSubsystem::RouteMessage`. -/
def routeMessage (env : Env) (s : ChatSettings) (registered : List Player)
    (m : ChatMessage) : List Player :=
  match m.channel with
  | EChatChannel.Global => sendToAllPlayers registered
  | EChatChannel.System => sendToAllPlayers registered
  | EChatChannel.Team => sendToTeam registered m
  | EChatChannel.Whisper => sendToPlayer registered m
  | EChatChannel.Proximity => sendToProximity env s.proximityChatRadius registered m
  | EChatChannel.Custom => sendToAllPlayers registered

/-- A rejection reason reported through `OutFailureReason`.  Validation and
authority failures are the source's strings; a rate-limit failure carries the
exact remaining-seconds value that the source formats with `%.1f`. -/
inductive FailureReason where
  | text (reason : String)
  | rateLimited (remainingSeconds : ℚ)
deriving DecidableEq

/-- Outcome of `UChatSubsystem::BroadcastMessage`: rejected with a reason, or
accepted with the list of components the message was delivered to. -/
inductive BroadcastResult where
  | rejected (reason : FailureReason)
  | accepted (recipients : List Player)
deriving DecidableEq

/-- `UChatSubsystem::BroadcastMessage`: authority guard, validation, rate
limiting, then commit (append to history and route). -/
def broadcastMessage (env : Env) (authority : Bool) (st : SubsystemState)
    (m : ChatMessage) (now : ℚ) : BroadcastResult × SubsystemState :=
  if authority = false then
    (BroadcastResult.rejected (FailureReason.text "Only server can broadcast messages"), st)
  else
    match validateMessage st.settings m with
    | some reason => (BroadcastResult.rejected (FailureReason.text reason), st)
    | none =>
      match m.sender with
      | some s =>
        match isPlayerRateLimited st.settings.messageCooldown st.playerMessageTimes s now with
        | (some remaining, _) =>
          (BroadcastResult.rejected (FailureReason.rateLimited remaining), st)
        | (none, times2) =>
          (BroadcastResult.accepted (routeMessage env st.settings st.registered m),
           { st with
               playerMessageTimes := times2
               history := addToHistory st.settings.maxHistorySize st.history m })
      | none =>
        (BroadcastResult.accepted (routeMessage env st.settings st.registered m),
         { st with history := addToHistory st.settings.maxHistorySize st.history m })

/-- The `FChatMessage` that `UChatSubsystem::BroadcastSystemMessage` builds. -/
def systemMessage (content : String) (color : LinearColor) (now : ℚ) : ChatMessage :=
  { sender := none, senderName := "System", content := content
    channel := EChatChannel.System, timestamp := now
    messageColor := color, whisperTarget := none }

/-- `UChatSubsystem::BroadcastSystemMessage`: on the authority, commits the
system message to history and sends it to all players, with no validation. -/
def broadcastSystemMessage (authority : Bool) (st : SubsystemState)
    (content : String) (color : LinearColor) (now : ℚ) :
    SubsystemState × List Player :=
  if authority = false then (st, [])
  else
    ({ st with
         history := addToHistory st.settings.maxHistorySize st.history
           (systemMessage content color now) },
     sendToAllPlayers st.registered)

/-- `UChatComponent::ServerSendMessage_Validate`: the network-boundary check
run before the RPC body, independent of any configured settings. -/
def serverSendMessage_Validate (content : String) : Bool :=
  !content.isEmpty && content.length ≤ 1024

/-- The `FChatMessage` built by `UChatComponent::ServerSendMessage_Implementation`
via the convenience constructor (sender present). -/
def mkChatMessage (env : Env) (sender : Player) (content : String)
    (channel : EChatChannel) (target : Option Player) (now : ℚ) : ChatMessage :=
  { sender := some sender, senderName := env.name sender, content := content
    channel := channel, timestamp := now
    messageColor := colorWhite, whisperTarget := target }

/-- A client submission arriving at the server: `ServerSendMessage_Validate`
gates the RPC (a failed validate drops the submission before any body runs,
returning `none`); on pass, `ServerSendMessage_Implementation` builds the
message and hands it to `BroadcastMessage`. -/
def serverSendMessage (env : Env) (authority : Bool) (st : SubsystemState)
    (owner : Player) (content : String) (channel : EChatChannel)
    (target : Option Player) (now : ℚ) :
    Option (BroadcastResult × SubsystemState) :=
  if serverSendMessage_Validate content then
    some (broadcastMessage env authority st
      (mkChatMessage env owner content channel target now) now)
  else
    none

/-- The client-local state owned by one `UChatComponent`. -/
structure ChatComponentState where
  mutedPlayers : List Player
  lastMessageTime : ℚ

/-- `UChatComponent::IsPlayerMuted` for a non-null player. -/
def isPlayerMuted (comp : ChatComponentState) (p : Player) : Bool :=
  comp.mutedPlayers.contains p

/-- `UChatComponent::ClientReceiveMessage_Implementation`: returns `true` iff
the `OnChatMessageReceived` event is raised (i.e. the sender, when present, is
not in this agent's mute set). -/
def clientReceiveMessage (comp : ChatComponentState) (m : ChatMessage) : Bool :=
  match m.sender with
  | some s => if isPlayerMuted comp s then false else true
  | none => true

/-- A local precheck failure in `UChatComponent::ValidateMessageLocally`; the
cooldown case carries the remaining-seconds value the source formats with
`%.1f`. -/
inductive LocalFailure where
  | emptyMessage
  | tooLong (maxLen : Int)
  | cooldown (remainingSeconds : ℚ)
deriving DecidableEq

/-- `UChatComponent::ValidateMessageLocally` with the subsystem reachable:
returns the failure (if any) and the possibly-updated `LastMessageTime`. -/
def validateMessageLocally (s : ChatSettings) (now lastMessageTime : ℚ)
    (content : String) : Option LocalFailure × ℚ :=
  if content.isEmpty then (some LocalFailure.emptyMessage, lastMessageTime)
  else if s.maxMessageLength < (content.length : Int) then
    (some (LocalFailure.tooLong s.maxMessageLength), lastMessageTime)
  else if now - lastMessageTime < s.messageCooldown then
    (some (LocalFailure.cooldown (s.messageCooldown - (now - lastMessageTime))),
     lastMessageTime)
  else (none, now)

/-- What a client-side send call does. -/
inductive ClientSendOutcome where
  | dropped
  | notifiedFailure (reason : LocalFailure)
  | sentToServer (content : String) (channel : EChatChannel) (target : Option Player)
deriving DecidableEq

/-- `UChatComponent::SendChatMessage`: silent early return on empty content or
missing owning player state; otherwise local precheck, then either a failure
notification or the server RPC. -/
def sendChatMessage (s : ChatSettings) (hasOwner : Bool) (now lastMessageTime : ℚ)
    (content : String) (channel : EChatChannel) : ClientSendOutcome × ℚ :=
  if content.isEmpty then (ClientSendOutcome.dropped, lastMessageTime)
  else if hasOwner = false then (ClientSendOutcome.dropped, lastMessageTime)
  else
    match validateMessageLocally s now lastMessageTime content with
    | (some r, t) => (ClientSendOutcome.notifiedFailure r, t)
    | (none, t) => (ClientSendOutcome.sentToServer content channel none, t)

/-- `UChatComponent::SendWhisper`. -/
def sendWhisper (s : ChatSettings) (hasOwner : Bool) (now lastMessageTime : ℚ)
    (target : Option Player) (content : String) : ClientSendOutcome × ℚ :=
  if target = none ∨ content.isEmpty then (ClientSendOutcome.dropped, lastMessageTime)
  else if hasOwner = false then (ClientSendOutcome.dropped, lastMessageTime)
  else
    match validateMessageLocally s now lastMessageTime content with
    | (some r, t) => (ClientSendOutcome.notifiedFailure r, t)
    | (none, t) => (ClientSendOutcome.sentToServer content EChatChannel.Whisper target, t)

/-- `UChatComponent::SendProximityMessage`. -/
def sendProximityMessage (s : ChatSettings) (hasOwner : Bool) (now lastMessageTime : ℚ)
    (content : String) : ClientSendOutcome × ℚ :=
  if content.isEmpty then (ClientSendOutcome.dropped, lastMessageTime)
  else if hasOwner = false then (ClientSendOutcome.dropped, lastMessageTime)
  else
    match validateMessageLocally s now lastMessageTime content with
    | (some r, t) => (ClientSendOutcome.notifiedFailure r, t)
    | (none, t) => (ClientSendOutcome.sentToServer content EChatChannel.Proximity none, t)

/-- An environment with no pawns, for concrete instances. -/
def env0 : Env := { pos := fun _ => none, name := fun _ => "P" }

/-- A fresh subsystem state with default settings and two registered agents. -/
def st0 : SubsystemState :=
  { settings := defaultChatSettings, registered := [0, 1]
    history := [], playerMessageTimes := [] }

/-- A short valid Global message from player 0. -/
def msgHi : ChatMessage :=
  { sender := some 0, senderName := "P", content := "hi"
    channel := EChatChannel.Global, timestamp := 0
    messageColor := colorWhite, whisperTarget := none }

/-- A whisper from player 0 to player 1. -/
def msgWhisper01 : ChatMessage :=
  { sender := some 0, senderName := "P", content := "hi"
    channel := EChatChannel.Whisper, timestamp := 0
    messageColor := colorWhite, whisperTarget := some 1 }

/-- A whisper from player 0 to player 0 (a self-whisper). -/
def msgWhisperSelf : ChatMessage :=
  { sender := some 0, senderName := "P", content := "hi"
    channel := EChatChannel.Whisper, timestamp := 0
    messageColor := colorWhite, whisperTarget := some 0 }

/-- A whisper from player 0 to the unregistered player 2. -/
def msgWhisperGone : ChatMessage :=
  { sender := some 0, senderName := "P", content := "hi"
    channel := EChatChannel.Whisper, timestamp := 0
    messageColor := colorWhite, whisperTarget := some 2 }

/-- A proximity message from player 0. -/
def msgProx : ChatMessage :=
  { sender := some 0, senderName := "P", content := "hi"
    channel := EChatChannel.Proximity, timestamp := 0
    messageColor := colorWhite, whisperTarget := none }

/-- Sample system messages for history instances. -/
def mA : ChatMessage := systemMessage "a" colorWhite 0

/-- Second sample message. -/
def mB : ChatMessage := systemMessage "b" colorWhite 0

/-- Third sample message. -/
def mC : ChatMessage := systemMessage "c" colorWhite 0

/-- Positions: player 0 at the origin, player 1 at distance 5, player 2 has no
pawn. -/
def envProx : Env :=
  { pos := fun p =>
      if p = 0 then some ⟨0, 0, 0⟩
      else if p = 1 then some ⟨3, 4, 0⟩
      else none
    name := fun _ => "P" }

/-- State with proximity radius 5 and three registered agents. -/
def stProx : SubsystemState :=
  { settings := { defaultChatSettings with proximityChatRadius := 5 }
    registered := [0, 1, 2], history := [], playerMessageTimes := [] }

/-- Content of 1025 characters, over the 1024-character hard cap. -/
def longContent : String := String.mk (List.replicate 1025 'a')

/-- C1: Validation applies the four checks in this exact order with the first
failure winning: empty content (unless allowed) rejects with the empty-message
reason; content longer than `maxMessageLength` rejects with a reason stating
the configured maximum; a non-System channel with sender absent rejects with
the invalid-sender reason; Whisper with target absent rejects with the
whisper-requires-target reason; a message passing all four checks passes. -/
theorem validateMessage_four_checks_in_order (s : ChatSettings) (m : ChatMessage) :
    (m.content.isEmpty = true ∧ s.bAllowEmptyMessages = false →
      validateMessage s m = some "Message content is empty")
    ∧ (¬(m.content.isEmpty = true ∧ s.bAllowEmptyMessages = false) →
        s.maxMessageLength < (m.content.length : Int) →
        validateMessage s m =
          some ("Message too long (max " ++ toString s.maxMessageLength ++ " characters)"))
    ∧ (¬(m.content.isEmpty = true ∧ s.bAllowEmptyMessages = false) →
        (m.content.length : Int) ≤ s.maxMessageLength →
        m.channel ≠ EChatChannel.System → m.sender = none →
        validateMessage s m = some "Invalid sender")
    ∧ (¬(m.content.isEmpty = true ∧ s.bAllowEmptyMessages = false) →
        (m.content.length : Int) ≤ s.maxMessageLength →
        (m.channel = EChatChannel.System ∨ m.sender ≠ none) →
        m.channel = EChatChannel.Whisper → m.whisperTarget = none →
        validateMessage s m = some "Whisper requires a target player")
    ∧ (¬(m.content.isEmpty = true ∧ s.bAllowEmptyMessages = false) →
        (m.content.length : Int) ≤ s.maxMessageLength →
        (m.channel = EChatChannel.System ∨ m.sender ≠ none) →
        (m.channel ≠ EChatChannel.Whisper ∨ m.whisperTarget ≠ none) →
        validateMessage s m = none) := by
  unfold validateMessage
  refine ⟨?_, ?_, ?_, ?_, ?_⟩
  · intro h
    rw [if_pos h]
  · intro h1 h2
    rw [if_neg h1, if_pos h2]
  · intro h1 h2 h3 h4
    rw [if_neg h1, if_neg (by omega), if_pos ⟨h3, h4⟩]
  · intro h1 h2 h3 h4 h5
    rw [if_neg h1, if_neg (by omega)]
    have hsender : ¬(m.channel ≠ EChatChannel.System ∧ m.sender = none) := by
      rcases h3 with h3 | h3
      · intro hc; exact hc.1 h3
      · intro hc; exact h3 hc.2
    rw [if_neg hsender, if_pos ⟨h4, h5⟩]
  · intro h1 h2 h3 h4
    have hsender : ¬(m.channel ≠ EChatChannel.System ∧ m.sender = none) := by
      rcases h3 with h3 | h3
      · intro hc; exact hc.1 h3
      · intro hc; exact h3 hc.2
    have hwh : ¬(m.channel = EChatChannel.Whisper ∧ m.whisperTarget = none) := by
      rcases h4 with h4 | h4
      · intro hc; exact h4 hc.1
      · intro hc; exact h4 hc.2
    rw [if_neg h1, if_neg (by omega), if_neg hsender, if_neg hwh]

/-- Witness for C1: the spec scenario `maxMessageLength = 10` with an
11-character content is rejected with the reason stating max 10, and a short
Global message from a present sender passes validation. -/
theorem validateMessage_four_checks_in_order_witness :
    validateMessage { defaultChatSettings with maxMessageLength := 10 }
        { sender := some 0, senderName := "P", content := "hello world"
          channel := EChatChannel.Global, timestamp := 0
          messageColor := colorWhite, whisperTarget := none } =
      some "Message too long (max 10 characters)"
    ∧ validateMessage defaultChatSettings
        { sender := some 0, senderName := "P", content := "hi"
          channel := EChatChannel.Global, timestamp := 0
          messageColor := colorWhite, whisperTarget := none } = none := by
  constructor
  · exact (validateMessage_four_checks_in_order _ _).2.1 (by decide) (by decide)
  · exact (validateMessage_four_checks_in_order _ _).2.2.2.2 (by decide) (by decide)
      (Or.inr (by decide)) (Or.inl (by decide))

/-- Looking up a player right after `addTime` recorded a time for them finds
that time. -/
theorem findTime_addTime_self (l : List (Player × ℚ)) (p : Player) (t : ℚ) :
    findTime (addTime l p t) p = some t := by
  induction l with
  | nil => simp [addTime, findTime]
  | cons e rest ih =>
    by_cases h : e.fst = p
    · simp [addTime, h, findTime]
    · have hb : (e.fst == p) = false := by simp [h]
      simp only [addTime, hb, Bool.false_eq_true, if_false]
      simp only [findTime, List.find?_cons, hb]
      simpa [findTime] using ih

/-- A validated message from a sender whose recorded timestamp is out of
cooldown is accepted, and the submission time is recorded. -/
theorem broadcast_not_limited (env : Env) (st : SubsystemState) (p : Player)
    (m : ChatMessage) (t2 last : ℚ)
    (hs : m.sender = some p) (hv : validateMessage st.settings m = none)
    (hf : findTime st.playerMessageTimes p = some last)
    (hnlt : ¬(t2 - last < st.settings.messageCooldown)) :
    (∃ r, (broadcastMessage env true st m t2).fst = BroadcastResult.accepted r)
    ∧ findTime (broadcastMessage env true st m t2).snd.playerMessageTimes p = some t2 := by
  have hb : broadcastMessage env true st m t2 =
      (BroadcastResult.accepted (routeMessage env st.settings st.registered m),
       { st with
           playerMessageTimes := addTime st.playerMessageTimes p t2
           history := addToHistory st.settings.maxHistorySize st.history m }) := by
    simp [broadcastMessage, hv, hs, isPlayerRateLimited, hf, hnlt]
  exact ⟨⟨_, by rw [hb]⟩, by rw [hb]; exact findTime_addTime_self _ _ _⟩

/-- C2: For a sender with no recorded timestamp, a validated submission is
accepted and records its time; a second validated submission Δ < cooldown
later is rejected carrying exactly cooldown − Δ with the whole state (and in
particular the recorded timestamp) unchanged; Δ ≥ cooldown later it is
accepted and records the new time; a lookup for a sender with no recorded
timestamp is never rate-limited. -/
theorem broadcast_rate_limit_pair (env : Env) (st : SubsystemState) (p : Player)
    (m1 m2 : ChatMessage) (t1 t2 : ℚ)
    (hfresh : findTime st.playerMessageTimes p = none)
    (hs1 : m1.sender = some p) (hs2 : m2.sender = some p)
    (hv1 : validateMessage st.settings m1 = none)
    (hv2 : validateMessage st.settings m2 = none) :
    (∃ r1, (broadcastMessage env true st m1 t1).fst = BroadcastResult.accepted r1)
    ∧ findTime (broadcastMessage env true st m1 t1).snd.playerMessageTimes p = some t1
    ∧ (t2 - t1 < st.settings.messageCooldown →
        broadcastMessage env true (broadcastMessage env true st m1 t1).snd m2 t2
          = (BroadcastResult.rejected (FailureReason.rateLimited
                (st.settings.messageCooldown - (t2 - t1))),
             (broadcastMessage env true st m1 t1).snd))
    ∧ (st.settings.messageCooldown ≤ t2 - t1 →
        (∃ r2, (broadcastMessage env true
            (broadcastMessage env true st m1 t1).snd m2 t2).fst
              = BroadcastResult.accepted r2)
        ∧ findTime (broadcastMessage env true
            (broadcastMessage env true st m1 t1).snd m2 t2).snd.playerMessageTimes p
              = some t2)
    ∧ (∀ (cooldown : ℚ) (times : List (Player × ℚ)) (q : Player) (now : ℚ),
        findTime times q = none →
        (isPlayerRateLimited cooldown times q now).fst = none) := by
  have hb1 : broadcastMessage env true st m1 t1 =
      (BroadcastResult.accepted (routeMessage env st.settings st.registered m1),
       { st with
           playerMessageTimes := addTime st.playerMessageTimes p t1
           history := addToHistory st.settings.maxHistorySize st.history m1 }) := by
    simp [broadcastMessage, hv1, hs1, isPlayerRateLimited, hfresh]
  refine ⟨⟨_, by rw [hb1]⟩, ?_, ?_, ?_, ?_⟩
  · rw [hb1]
    exact findTime_addTime_self _ _ _
  · intro hlt
    rw [hb1]
    simp [broadcastMessage, hv2, hs2, isPlayerRateLimited,
      findTime_addTime_self, hlt]
  · intro hge
    have hnlt : ¬(t2 - t1 < st.settings.messageCooldown) := not_lt.mpr hge
    rw [hb1]
    exact broadcast_not_limited env _ p m2 t2 t1 hs2 hv2
      (findTime_addTime_self _ _ _) hnlt
  · intro cooldown times q now hq
    simp [isPlayerRateLimited, hq]

/-- Witness for C2: player 0 is fresh in `st0`, so a first message at time 0
is accepted and time 0 is recorded. -/
theorem broadcast_rate_limit_pair_witness :
    (∃ r1, (broadcastMessage env0 true st0 msgHi 0).fst = BroadcastResult.accepted r1)
    ∧ findTime (broadcastMessage env0 true st0 msgHi 0).snd.playerMessageTimes 0 = some 0 :=
  ⟨(broadcast_rate_limit_pair env0 st0 0 msgHi msgHi 0 1 rfl rfl rfl
      (by decide) (by decide)).1,
   (broadcast_rate_limit_pair env0 st0 0 msgHi msgHi 0 1 rfl rfl rfl
      (by decide) (by decide)).2.1⟩

/-- The trimming loop drops exactly the oldest entries beyond the cap. -/
theorem trimHistory_eq_drop (M : Int) (hM : 0 ≤ M) (l : List ChatMessage) :
    trimHistory M l = l.drop (l.length - M.toNat) := by
  induction l with
  | nil => simp [trimHistory]
  | cons a l ih =>
    by_cases h : M < ((a :: l).length : Int)
    · rw [trimHistory, if_pos h, ih]
      simp only [List.length_cons] at h
      have h2 : (a :: l).length - M.toNat = (l.length - M.toNat) + 1 := by
        simp only [List.length_cons]
        omega
      rw [h2, List.drop_succ_cons]
    · rw [trimHistory, if_neg h]
      simp only [List.length_cons] at h
      have h2 : (a :: l).length - M.toNat = 0 := by
        simp only [List.length_cons]
        omega
      rw [h2, List.drop_zero]

/-- After any append the history length is within the cap. -/
theorem addToHistory_length_le (M : Int) (hM : 0 ≤ M) (h : List ChatMessage)
    (m : ChatMessage) : ((addToHistory M h m).length : Int) ≤ M := by
  rw [addToHistory, trimHistory_eq_drop M hM]
  simp only [List.length_drop, List.length_append, List.length_cons]
  omega

/-- Folding a whole list of accepted messages into a history within the cap
leaves exactly the newest `M` entries of the concatenation. -/
theorem foldl_addToHistory (M : Int) (hM : 0 ≤ M) (msgs : List ChatMessage) :
    ∀ h : List ChatMessage, h.length ≤ M.toNat →
      msgs.foldl (addToHistory M) h = (h ++ msgs).drop ((h ++ msgs).length - M.toNat) := by
  induction msgs with
  | nil =>
    intro h hh
    simp only [List.foldl_nil, List.append_nil]
    rw [Nat.sub_eq_zero_of_le hh, List.drop_zero]
  | cons m ms ih =>
    intro h hh
    rw [List.foldl_cons,
      ih (addToHistory M h m) (by have := addToHistory_length_le M hM h m; omega)]
    conv_lhs => rw [addToHistory, trimHistory_eq_drop M hM]
    rw [← List.drop_append_of_le_length (by simp), List.drop_drop]
    have harr : (h ++ [m]) ++ ms = h ++ m :: ms := by
      simp
    rw [harr]
    congr 1
    have hlen1 : (addToHistory M h m).length
        = (h ++ [m]).length - ((h ++ [m]).length - M.toNat) := by
      rw [addToHistory, trimHistory_eq_drop M hM, List.length_drop]
    simp only [addToHistory, trimHistory_eq_drop M hM] at *
    simp only [List.length_append, List.length_drop, List.length_cons,
      List.length_nil] at *
    omega

/-- C3: the history is a FIFO bounded by `maxHistorySize`: every append leaves
at most `maxHistorySize` entries; trimming evicts the oldest entries first (the
result is the newest suffix of the appended list); and after more than
`maxHistorySize` accepted submissions starting from an empty history,
`GetRecentMessages(0)` returns exactly the last `maxHistorySize` messages in
submission order, oldest first. -/
theorem history_bounded_fifo (M : Int) (hM : 0 ≤ M) (h : List ChatMessage)
    (m : ChatMessage) (msgs : List ChatMessage) :
    ((addToHistory M h m).length : Int) ≤ M
    ∧ addToHistory M h m = (h ++ [m]).drop ((h ++ [m]).length - M.toNat)
    ∧ (M.toNat < msgs.length →
        getRecentMessages 0 (msgs.foldl (addToHistory M) [])
          = msgs.drop (msgs.length - M.toNat)) := by
  refine ⟨addToHistory_length_le M hM h m, ?_, ?_⟩
  · rw [addToHistory, trimHistory_eq_drop M hM]
  · intro hlen
    rw [foldl_addToHistory M hM msgs [] (by simp)]
    simp [getRecentMessages]

/-- Witness for C3 at cap 2: appending a second message keeps both, and three
accepted submissions leave exactly the last two, oldest first. -/
theorem history_bounded_fifo_witness :
    ((addToHistory 2 [mA] mB).length : Int) ≤ 2
    ∧ addToHistory 2 [mA] mB = ([mA] ++ [mB]).drop (([mA] ++ [mB]).length - (2 : Int).toNat)
    ∧ ((2 : Int).toNat < [mA, mB, mC].length →
        getRecentMessages 0 ([mA, mB, mC].foldl (addToHistory 2) [])
          = [mA, mB, mC].drop ([mA, mB, mC].length - (2 : Int).toNat)) :=
  history_bounded_fifo 2 (by decide) [mA] mB [mA, mB, mC]

/-- C6: `GetRecentMessages(count)` returns the full buffer for `count ≤ 0` or
`count ≥ historySize`, and for positive `count` returns the last
`min(count, historySize)` messages as the order-preserving newest suffix. -/
theorem getRecentMessages_spec (count : Int) (h : List ChatMessage) :
    ((count ≤ 0 ∨ (h.length : Int) ≤ count) → getRecentMessages count h = h)
    ∧ (0 < count → getRecentMessages count h = h.drop (h.length - count.toNat)) := by
  constructor
  · intro hc
    rw [getRecentMessages, if_pos hc]
  · intro hc
    by_cases hbig : (h.length : Int) ≤ count
    · rw [getRecentMessages, if_pos (Or.inr hbig)]
      have h0 : h.length - count.toNat = 0 := by omega
      rw [h0, List.drop_zero]
    · rw [getRecentMessages, if_neg (by push_neg; exact ⟨by omega, by omega⟩)]
      congr 1
      have hmx : max (0 : Int) ((h.length : Int) - count) = (h.length : Int) - count :=
        max_eq_right (by omega)
      rw [hmx]
      omega

/-- Witness for C6: with a two-message history, `count = 0` returns the full
buffer and `count = 1` returns only the newest message. -/
theorem getRecentMessages_spec_witness :
    getRecentMessages 0 [mA, mB] = [mA, mB]
    ∧ getRecentMessages 1 [mA, mB] = [mA, mB].drop ([mA, mB].length - (1 : Int).toNat) :=
  ⟨(getRecentMessages_spec 0 [mA, mB]).1 (Or.inl (by decide)),
   (getRecentMessages_spec 1 [mA, mB]).2 (by decide)⟩

/-- Inversion of an accepted broadcast: validation passed, the recipients are
those computed by the router, and the message was appended to the history. -/
theorem broadcastMessage_accepted (env : Env) (st : SubsystemState)
    (m : ChatMessage) (now : ℚ) (r : List Player)
    (h : (broadcastMessage env true st m now).fst = BroadcastResult.accepted r) :
    validateMessage st.settings m = none
    ∧ r = routeMessage env st.settings st.registered m
    ∧ (broadcastMessage env true st m now).snd.history
        = addToHistory st.settings.maxHistorySize st.history m := by
  cases hval : validateMessage st.settings m with
  | some reason =>
    exfalso
    rw [broadcastMessage] at h
    simp [hval] at h
  | none =>
    refine ⟨rfl, ?_, ?_⟩ <;>
    · cases hs : m.sender with
      | none => simp_all [broadcastMessage]
      | some p =>
        rcases hrl : isPlayerRateLimited st.settings.messageCooldown
            st.playerMessageTimes p now with ⟨orem, times2⟩
        cases orem with
        | some rem => simp_all [broadcastMessage]
        | none => simp_all [broadcastMessage]

/-- Looking up a registered player finds their (first) component, which is the
player itself in this model. -/
theorem getComp_of_mem (reg : List Player) (p : Player) (hp : p ∈ reg) :
    getChatComponentForPlayer reg p = some p := by
  induction reg with
  | nil => cases hp
  | cons a l ih =>
    by_cases h : a = p
    · subst h
      simp [getChatComponentForPlayer]
    · have hb : (a == p) = false := by simp [h]
      have hpl : p ∈ l := by
        cases hp with
        | head => exact absurd rfl h
        | tail _ hmem => exact hmem
      simp only [getChatComponentForPlayer, List.find?_cons, hb]
      exact ih hpl

/-- Any component found for player `p` is owned by `p`. -/
theorem getComp_eq (reg : List Player) (p c : Player)
    (h : getChatComponentForPlayer reg p = some c) : c = p := by
  have := List.find?_some h
  simpa using this

/-- C4 (amended): for an accepted whisper, no agent other than the sender and
the target ever receives it; and when sender and target are distinct and both
registered, the delivery list is exactly target then sender, each exactly
once.  (A self-whisper is delivered twice to that one agent, and an
unregistered sender or target is silently skipped.) -/
theorem whisper_delivery_amended (env : Env) (st : SubsystemState)
    (m : ChatMessage) (now : ℚ) (r : List Player)
    (h : (broadcastMessage env true st m now).fst = BroadcastResult.accepted r)
    (hch : m.channel = EChatChannel.Whisper) :
    (∀ a ∈ r, m.sender = some a ∨ m.whisperTarget = some a)
    ∧ (∀ s t : Player, m.sender = some s → m.whisperTarget = some t → s ≠ t →
        s ∈ st.registered → t ∈ st.registered →
        r = [t, s] ∧ ∀ a : Player, r.count a = if a = t ∨ a = s then 1 else 0) := by
  obtain ⟨-, hr, -⟩ := broadcastMessage_accepted env st m now r h
  simp only [routeMessage, hch] at hr
  constructor
  · intro a ha
    rw [hr] at ha
    simp only [sendToPlayer] at ha
    cases ht : m.whisperTarget with
    | none => simp [ht] at ha
    | some t =>
      rw [ht] at ha
      simp only [List.mem_append] at ha
      rcases ha with hmem | hmem
      · right
        cases hfind : getChatComponentForPlayer st.registered t with
        | none => simp [hfind] at hmem
        | some c =>
          simp only [hfind] at hmem
          have hc : a = c := by simpa using hmem
          rw [hc, getComp_eq st.registered t c hfind]
      · left
        cases hs : m.sender with
        | none => simp [hs] at hmem
        | some s =>
          rw [hs] at hmem
          cases hfind : getChatComponentForPlayer st.registered s with
          | none => simp [hfind] at hmem
          | some c =>
            simp only [hfind] at hmem
            have hc : a = c := by simpa using hmem
            rw [hc, getComp_eq st.registered s c hfind]
  · intro s t hs ht hne hsr htr
    have hrr : r = [t, s] := by
      rw [hr]
      simp only [sendToPlayer, ht, hs, getComp_of_mem st.registered t htr,
        getComp_of_mem st.registered s hsr]
      rfl
    refine ⟨hrr, ?_⟩
    intro a
    rw [hrr]
    by_cases hat : a = t <;> by_cases has : a = s
    · exact absurd (has.symm.trans hat) hne
    · subst hat
      simp [List.count_cons, has, Ne.symm has]
    · subst has
      simp [List.count_cons, hat, Ne.symm hat]
    · simp [List.count_cons, hat, has, Ne.symm hat, Ne.symm has]

/-- Counterexample for C4 as stated: an accepted self-whisper (sender =
target = player 0) is delivered twice to that one agent, not exactly once;
and an accepted whisper to the unregistered player 2 is delivered to the
sender only, so the delivery set is not {sender, target}. -/
theorem whisper_delivery_counterexample :
    (broadcastMessage env0 true st0 msgWhisperSelf 0).fst
      = BroadcastResult.accepted [0, 0]
    ∧ ([0, 0] : List Player).count 0 ≠ 1
    ∧ (broadcastMessage env0 true st0 msgWhisperGone 0).fst
      = BroadcastResult.accepted [0]
    ∧ msgWhisperGone.whisperTarget = some 2
    ∧ (2 : Player) ∉ ([0] : List Player) := by
  refine ⟨by decide, by decide, by decide, rfl, by decide⟩

/-- Witness for C4 (amended) at the whisper from registered player 0 to
registered player 1 in `st0`. -/
theorem whisper_delivery_amended_witness :
    (∀ a ∈ ([1, 0] : List Player),
      msgWhisper01.sender = some a ∨ msgWhisper01.whisperTarget = some a)
    ∧ (∀ s t : Player, msgWhisper01.sender = some s →
        msgWhisper01.whisperTarget = some t → s ≠ t →
        s ∈ st0.registered → t ∈ st0.registered →
        ([1, 0] : List Player) = [t, s]
        ∧ ∀ a : Player, ([1, 0] : List Player).count a
            = if a = t ∨ a = s then 1 else 0) :=
  whisper_delivery_amended env0 st0 msgWhisper01 0 [1, 0] (by decide) rfl

/-- C5: for an accepted proximity message from sender `s`: if `s` has no
resolvable position nobody receives it; otherwise an agent receives it exactly
when it is registered and has a resolvable position within squared distance
`proximityRadius²` of the sender (boundary inclusive); an agent with no
resolvable position never receives it. -/
theorem proximity_delivery (env : Env) (st : SubsystemState) (m : ChatMessage)
    (now : ℚ) (r : List Player) (s : Player)
    (h : (broadcastMessage env true st m now).fst = BroadcastResult.accepted r)
    (hch : m.channel = EChatChannel.Proximity) (hs : m.sender = some s) :
    (env.pos s = none → r = [])
    ∧ (∀ sp, env.pos s = some sp → ∀ a : Player,
        a ∈ r ↔ a ∈ st.registered ∧ ∃ q, env.pos a = some q ∧
          distSq sp q ≤ st.settings.proximityChatRadius * st.settings.proximityChatRadius)
    ∧ (∀ a : Player, env.pos a = none → a ∉ r) := by
  obtain ⟨-, hr, -⟩ := broadcastMessage_accepted env st m now r h
  simp only [routeMessage, hch, sendToProximity, hs] at hr
  refine ⟨?_, ?_, ?_⟩
  · intro hp
    rw [hp] at hr
    simpa using hr
  · intro sp hp a
    rw [hp] at hr
    rw [hr]
    simp only [List.mem_filter]
    cases hq : env.pos a with
    | none => simp [hq]
    | some q => simp [hq]
  · intro a hpa hmem
    cases hps : env.pos s with
    | none =>
      rw [hps] at hr
      simp only [] at hr
      rw [hr] at hmem
      simp at hmem
    | some sp =>
      rw [hps] at hr
      rw [hr] at hmem
      simp only [List.mem_filter] at hmem
      rw [hpa] at hmem
      simp at hmem

/-- Witness for C5: sender 0 at the origin with radius 5; player 1 at
distance exactly 5 is included (boundary inclusive), player 2 without a pawn
is excluded. -/
theorem proximity_delivery_witness :
    (envProx.pos 0 = none → ([0, 1] : List Player) = [])
    ∧ (∀ sp, envProx.pos 0 = some sp → ∀ a : Player,
        a ∈ ([0, 1] : List Player) ↔ a ∈ stProx.registered ∧ ∃ q, envProx.pos a = some q ∧
          distSq sp q ≤ stProx.settings.proximityChatRadius * stProx.settings.proximityChatRadius)
    ∧ (∀ a : Player, envProx.pos a = none → a ∉ ([0, 1] : List Player)) :=
  proximity_delivery envProx stProx msgProx 0 [0, 1] 0
    (by
      norm_num [broadcastMessage, validateMessage, msgProx, stProx, defaultChatSettings,
        isPlayerRateLimited, findTime, addTime, routeMessage, sendToProximity, envProx,
        distSq, List.filter]
      decide)
    rfl rfl

/-- C7: at any agent, a delivered message whose sender is in that agent's
local mute set raises no reception event, and one whose sender is absent or
not muted raises the event; the authority history append and the computed
delivery set are unaffected by any agent's mute set. -/
theorem mute_filter_delivery (env : Env) (st : SubsystemState) (m : ChatMessage)
    (now : ℚ) (r : List Player)
    (h : (broadcastMessage env true st m now).fst = BroadcastResult.accepted r) :
    (∀ (agent : ChatComponentState) (s : Player), m.sender = some s →
       isPlayerMuted agent s = true → clientReceiveMessage agent m = false)
    ∧ (∀ agent : ChatComponentState,
       (∀ s : Player, m.sender = some s → isPlayerMuted agent s = false) →
       clientReceiveMessage agent m = true)
    ∧ (broadcastMessage env true st m now).snd.history
        = addToHistory st.settings.maxHistorySize st.history m
    ∧ r = routeMessage env st.settings st.registered m := by
  obtain ⟨-, hr, hh⟩ := broadcastMessage_accepted env st m now r h
  refine ⟨?_, ?_, hh, hr⟩
  · intro agent s hs hmute
    simp [clientReceiveMessage, hs, hmute]
  · intro agent hnm
    cases hs : m.sender with
    | none => simp [clientReceiveMessage, hs]
    | some s => simp [clientReceiveMessage, hs, hnm s hs]

/-- Witness for C7: an agent that muted player 0 raises no event for `msgHi`
(sent by player 0), while an agent with an empty mute set raises it. -/
theorem mute_filter_delivery_witness :
    clientReceiveMessage ⟨[0], 0⟩ msgHi = false
    ∧ clientReceiveMessage ⟨[], 0⟩ msgHi = true :=
  ⟨(mute_filter_delivery env0 st0 msgHi 0 [0, 1] (by decide)).1 ⟨[0], 0⟩ 0 rfl (by decide),
   (mute_filter_delivery env0 st0 msgHi 0 [0, 1] (by decide)).2.1 ⟨[], 0⟩ (fun _ _ => rfl)⟩

/-- C8: a submission whose content exceeds 1024 characters fails the
network-boundary validate — which consults no configured settings — and for
every subsystem state the submission produces nothing: it never reaches
validation, history, or delivery. -/
theorem server_hard_cap (env : Env) (authority : Bool) (owner : Player)
    (content : String) (channel : EChatChannel) (target : Option Player) (now : ℚ)
    (hlen : 1024 < content.length) :
    serverSendMessage_Validate content = false
    ∧ ∀ st : SubsystemState,
        serverSendMessage env authority st owner content channel target now = none := by
  have hd : decide (content.length ≤ 1024) = false := by
    simp only [decide_eq_false_iff_not]
    omega
  have hv : serverSendMessage_Validate content = false := by
    simp [serverSendMessage_Validate, hd]
  exact ⟨hv, fun st => by simp [serverSendMessage, hv]⟩

/-- Witness for C8 at a concrete 1025-character content. -/
theorem server_hard_cap_witness :
    serverSendMessage_Validate longContent = false
    ∧ serverSendMessage env0 true st0 0 longContent EChatChannel.Global none 0 = none :=
  ⟨(server_hard_cap env0 true 0 longContent EChatChannel.Global none 0
      (by
        have h : longContent.length = 1025 := by
          rw [longContent, String.length]
          exact List.length_replicate 1025 'a'
        omega)).1,
   (server_hard_cap env0 true 0 longContent EChatChannel.Global none 0
      (by
        have h : longContent.length = 1025 := by
          rw [longContent, String.length]
          exact List.length_replicate 1025 'a'
        omega)).2 st0⟩

/-- Counterexample for C9 as stated: `SendChatMessage` with empty content
returns through the silent early-exit — it does not contact the authority,
but it also synthesizes no failure notification. -/
theorem clientSend_precheck_counterexample :
    (sendChatMessage defaultChatSettings true 0 0 "" EChatChannel.Global).fst
      = ClientSendOutcome.dropped
    ∧ ∀ reason : LocalFailure,
        (sendChatMessage defaultChatSettings true 0 0 "" EChatChannel.Global).fst
          ≠ ClientSendOutcome.notifiedFailure reason := by
  have h0 : (sendChatMessage defaultChatSettings true 0 0 "" EChatChannel.Global).fst
      = ClientSendOutcome.dropped := by decide
  refine ⟨h0, ?_⟩
  intro reason
  rw [h0]
  exact fun hc => ClientSendOutcome.noConfusion hc

/-- C9 (amended): a send with empty content is silently dropped with no
notification and no authority contact; a nonempty send whose local precheck
fails (too long, or cooldown not elapsed) synthesizes a failure notification
and does not contact the authority; a send whose precheck passes is forwarded
to the authority. -/
theorem clientSend_precheck_amended (s : ChatSettings) (ho : Bool)
    (now last : ℚ) (content : String) (ch : EChatChannel) (tgt : Player) :
    (content.isEmpty = true →
      sendChatMessage s ho now last content ch = (ClientSendOutcome.dropped, last)
      ∧ sendWhisper s ho now last (some tgt) content = (ClientSendOutcome.dropped, last)
      ∧ sendProximityMessage s ho now last content = (ClientSendOutcome.dropped, last))
    ∧ (∀ (r : LocalFailure) (t : ℚ), content.isEmpty = false → ho = true →
        validateMessageLocally s now last content = (some r, t) →
        sendChatMessage s ho now last content ch = (ClientSendOutcome.notifiedFailure r, t)
        ∧ sendWhisper s ho now last (some tgt) content
            = (ClientSendOutcome.notifiedFailure r, t)
        ∧ sendProximityMessage s ho now last content
            = (ClientSendOutcome.notifiedFailure r, t))
    ∧ (∀ t : ℚ, content.isEmpty = false → ho = true →
        validateMessageLocally s now last content = (none, t) →
        sendChatMessage s ho now last content ch
            = (ClientSendOutcome.sentToServer content ch none, t)
        ∧ sendWhisper s ho now last (some tgt) content
            = (ClientSendOutcome.sentToServer content EChatChannel.Whisper (some tgt), t)
        ∧ sendProximityMessage s ho now last content
            = (ClientSendOutcome.sentToServer content EChatChannel.Proximity none, t)) := by
  refine ⟨?_, ?_, ?_⟩
  · intro he
    refine ⟨?_, ?_, ?_⟩ <;>
      simp [sendChatMessage, sendWhisper, sendProximityMessage, he]
  · intro r t he hho hv
    subst hho
    refine ⟨?_, ?_, ?_⟩ <;>
      simp [sendChatMessage, sendWhisper, sendProximityMessage, he, hv]
  · intro t he hho hv
    subst hho
    refine ⟨?_, ?_, ?_⟩ <;>
      simp [sendChatMessage, sendWhisper, sendProximityMessage, he, hv]

/-- Witness for C9 (amended): a short message past its cooldown is forwarded
to the authority by all three send paths. -/
theorem clientSend_precheck_amended_witness :
    sendChatMessage defaultChatSettings true 10 0 "hi" EChatChannel.Global
      = (ClientSendOutcome.sentToServer "hi" EChatChannel.Global none, 10)
    ∧ sendWhisper defaultChatSettings true 10 0 (some 1) "hi"
      = (ClientSendOutcome.sentToServer "hi" EChatChannel.Whisper (some 1), 10)
    ∧ sendProximityMessage defaultChatSettings true 10 0 "hi"
      = (ClientSendOutcome.sentToServer "hi" EChatChannel.Proximity none, 10) :=
  (clientSend_precheck_amended defaultChatSettings true 10 0 "hi" EChatChannel.Global 1).2.2
    10 rfl rfl
    (by
      norm_num [validateMessageLocally, defaultChatSettings]
      decide)

/-- C10: `BroadcastSystemMessage` on the authority performs no content
validation at all: for every content string — empty or arbitrarily long — it
commits a message with sender absent, display name "System" and channel
System to history, and delivers it to every registered agent; settings and
rate-limit state are untouched. -/
theorem systemBroadcast_unconditional (st : SubsystemState) (content : String)
    (color : LinearColor) (now : ℚ) :
    (broadcastSystemMessage true st content color now).fst.history
      = addToHistory st.settings.maxHistorySize st.history (systemMessage content color now)
    ∧ (broadcastSystemMessage true st content color now).snd = sendToAllPlayers st.registered
    ∧ (broadcastSystemMessage true st content color now).snd = st.registered
    ∧ (systemMessage content color now).sender = none
    ∧ (systemMessage content color now).senderName = "System"
    ∧ (systemMessage content color now).channel = EChatChannel.System
    ∧ (broadcastSystemMessage true st content color now).fst.settings = st.settings
    ∧ (broadcastSystemMessage true st content color now).fst.playerMessageTimes
        = st.playerMessageTimes := by
  refine ⟨?_, ?_, ?_, rfl, rfl, rfl, ?_, ?_⟩ <;>
    simp [broadcastSystemMessage, sendToAllPlayers]
